import Mathlib

/-!
Shallow embedding of the route-planning pipeline of `rotadebares`
(geocoding, POI collection, cost-matrix construction, elevation penalty,
TSP post-processing, waypoint pre-selection) and proofs of the spec claims.

Floating-point values of the Python source are modelled as rationals (ℚ);
HTTP requests are modelled by their outcome, passed in as a parameter
(`Option`/`PyResult` values), so every function is a pure denotation of
the corresponding Python function's control flow.
-/

namespace RotaDeBares

/-! ### Bounding boxes (`geocoding.py`) -/

/-- Bounding box `(south, north, west, east)`, as returned by `get_city_bbox`. -/
abbrev Bbox := ℚ × ℚ × ℚ × ℚ

/-- Embedding of `geocoding.dentro_da_cidade`:
`s <= lat <= n and w <= lon <= e`. -/
def dentro_da_cidade (lat lon : ℚ) (bbox : Bbox) : Bool :=
  let (s, n, w, e) := bbox
  decide (s ≤ lat) && decide (lat ≤ n) && decide (w ≤ lon) && decide (lon ≤ e)

/-! ### Python truthiness helpers

`coletar_pois` tests `if not (name and lat and lon)` and chains
`el.get("lat") or el.get("center", {}).get("lat")`; both rely on Python
truthiness, where `None`, `0`, `0.0` and `""` are falsy. -/

/-- Truthiness of an optional number: present and nonzero. -/
def pyTruthyNum (x : Option ℚ) : Bool :=
  match x with
  | none => false
  | some v => decide (v ≠ 0)

/-- Truthiness of an optional string: present and nonempty. -/
def pyTruthyStr (s : Option String) : Bool :=
  match s with
  | none => false
  | some v => decide (v ≠ "")

/-- Python `a or b` over optional numbers (falsy chain). -/
def pyOrNum (a b : Option ℚ) : Option ℚ :=
  if pyTruthyNum a then a else b

/-- Python `a or b` over optional strings (falsy chain). -/
def pyOrStr (a b : Option String) : Option String :=
  if pyTruthyStr a then a else b

/-! ### Overpass elements and POIs (`data_fetch.py`, `async_fetch.py`) -/

/-- Fields of an Overpass element consumed by the collectors: the tag
`name`, the node coordinates `lat`/`lon`, the `center` coordinates of a
way/relation, and the tag `addr:city` (used only by the async collector). -/
structure OsmElement where
  name : Option String
  lat : Option ℚ
  lon : Option ℚ
  centerLat : Option ℚ
  centerLon : Option ℚ
  addrCity : Option String
deriving Repr, DecidableEq

/-- A collected point of interest. -/
structure POI where
  name : String
  lat : ℚ
  lon : ℚ
deriving Repr, DecidableEq

/-- Element-wise loop of `data_fetch.coletar_pois`: `pois_by_name` is an
insertion-ordered dict keyed by `name` (modelled as the accumulator list,
appending only names not yet present), and elements failing the
truthiness test or the bbox containment test are skipped. -/
def coletar_pois_elems (bbox : Option Bbox) : List OsmElement → List POI → List POI
  | [], acc => acc
  | el :: rest, acc =>
    let name := el.name
    let lat := pyOrNum el.lat el.centerLat
    let lon := pyOrNum el.lon el.centerLon
    if pyTruthyStr name && pyTruthyNum lat && pyTruthyNum lon then
      let nm := name.getD ""
      let la := lat.getD 0
      let lo := lon.getD 0
      let inside := bbox.isNone || dentro_da_cidade la lo (bbox.getD (0, 0, 0, 0))
      if inside then
        if acc.any (fun p => p.name = nm) then
          coletar_pois_elems bbox rest acc
        else
          coletar_pois_elems bbox rest (acc ++ [⟨nm, la, lo⟩])
      else
        coletar_pois_elems bbox rest acc
    else
      coletar_pois_elems bbox rest acc

/-- Element-processing part of `data_fetch.coletar_pois`, starting from the
empty dict. -/
def coletar_pois (bbox : Option Bbox) (elements : List OsmElement) : List POI :=
  coletar_pois_elems bbox elements []

/-- Embedding of `geocoding.point_in_polygon`: with no polygon (or Shapely
absent, or a Shapely error) every point is accepted; otherwise the
polygon's containment test decides.  The polygon is modelled by its
containment predicate. -/
def point_in_polygon (lat lon : ℚ) (poly : Option (ℚ → ℚ → Bool)) : Bool :=
  match poly with
  | none => true
  | some f => f lat lon

/-- Element-wise loop of `async_fetch.coletar_pois_async`: same truthiness
test, then the `addr:city` tag check, then polygon containment when a
polygon is available, then bbox containment when only a bbox is available;
passing elements are appended with no per-name deduplication. -/
def coletar_pois_async_elems (cidade : String) (bbox : Option Bbox)
    (poly : Option (ℚ → ℚ → Bool)) : List OsmElement → List POI
  | [] => []
  | el :: rest =>
    let name := el.name
    let lat := pyOrNum el.lat el.centerLat
    let lon := pyOrNum el.lon el.centerLon
    if pyTruthyStr name && pyTruthyNum lat && pyTruthyNum lon then
      let nm := name.getD ""
      let la := lat.getD 0
      let lo := lon.getD 0
      if pyTruthyStr el.addrCity &&
          decide ((el.addrCity.getD "").toLower ≠ cidade.toLower) then
        coletar_pois_async_elems cidade bbox poly rest
      else if poly.isSome && !point_in_polygon la lo poly then
        coletar_pois_async_elems cidade bbox poly rest
      else if bbox.isSome && poly.isNone &&
          !dentro_da_cidade la lo (bbox.getD (0, 0, 0, 0)) then
        coletar_pois_async_elems cidade bbox poly rest
      else
        ⟨nm, la, lo⟩ :: coletar_pois_async_elems cidade bbox poly rest
    else
      coletar_pois_async_elems cidade bbox poly rest

/-- Names already collected stay distinct: the sync collector only appends
a POI whose name is absent from the accumulator. -/
lemma coletar_pois_elems_pairwise (bbox : Option Bbox) (els : List OsmElement)
    (acc : List POI) (h : acc.Pairwise (fun p q => p.name ≠ q.name)) :
    (coletar_pois_elems bbox els acc).Pairwise (fun p q => p.name ≠ q.name) := by
  induction els generalizing acc with
  | nil => simpa [coletar_pois_elems] using h
  | cons el rest ih =>
    rw [coletar_pois_elems]
    dsimp only
    split
    · split
      · split
        · exact ih _ h
        · rename_i hmem
          apply ih
          rw [List.pairwise_append]
          refine ⟨h, by simp, ?_⟩
          intro a ha b hb
          simp only [List.mem_singleton] at hb
          subst hb
          simp only [List.any_eq_true, decide_eq_true_eq] at hmem
          push_neg at hmem
          exact hmem a ha
      · exact ih _ h
    · exact ih _ h

/-! ### Theorem for claim C8 -/

/-- C8.  Bounding-box containment: for every bbox `(s, n, w, e)` and point
`(lat, lon)`, `dentro_da_cidade` holds exactly when
`s ≤ lat ≤ n ∧ w ≤ lon ≤ e`, inclusive on all four bounds. -/
theorem dentro_da_cidade_iff (lat lon s n w e : ℚ) :
    dentro_da_cidade lat lon (s, n, w, e) = true ↔
      (s ≤ lat ∧ lat ≤ n) ∧ (w ≤ lon ∧ lon ≤ e) := by
  simp [dentro_da_cidade, and_assoc]

/-- C5 counterexample: the async collector does not deduplicate by name.
Two elements named `Bar1`, both inside the bbox `(0, 2, 0, 2)`, both
survive, so the result contains two POIs with the same name, refuting
"the sequence returned by the POI collector contains at most one POI per
name". -/
theorem coletar_pois_async_duplicate_names :
    (coletar_pois_async_elems "x" (some (0, 2, 0, 2)) none
      [⟨some "Bar1", some 1, some 1, none, none, none⟩,
       ⟨some "Bar1", some 2, some 2, none, none, none⟩]).countP
        (fun p => p.name = "Bar1") = 2 := by
  decide

/-- C5 amended.  The synchronous collector deduplicates by name (its output
names are pairwise distinct, first-seen wins); in the two-element
inside/outside scenario both collectors return exactly the single entry
with the inside coordinates, regardless of upstream order; but the async
collector performs no per-name deduplication in general. -/
theorem poi_dedup_amended :
    (∀ (bbox : Option Bbox) (els : List OsmElement),
        (coletar_pois bbox els).Pairwise (fun p q => p.name ≠ q.name)) ∧
    (∀ (nm : String) (laI loI laO loO : ℚ) (b : Bbox),
        nm ≠ "" → laI ≠ 0 → loI ≠ 0 → laO ≠ 0 → loO ≠ 0 →
        dentro_da_cidade laI loI b = true →
        dentro_da_cidade laO loO b = false →
        (coletar_pois (some b)
            [⟨some nm, some laO, some loO, none, none, none⟩,
             ⟨some nm, some laI, some loI, none, none, none⟩] =
              [⟨nm, laI, loI⟩] ∧
         coletar_pois (some b)
            [⟨some nm, some laI, some loI, none, none, none⟩,
             ⟨some nm, some laO, some loO, none, none, none⟩] =
              [⟨nm, laI, loI⟩] ∧
         (∀ cidade : String,
           coletar_pois_async_elems cidade (some b) none
            [⟨some nm, some laO, some loO, none, none, none⟩,
             ⟨some nm, some laI, some loI, none, none, none⟩] =
              [⟨nm, laI, loI⟩] ∧
           coletar_pois_async_elems cidade (some b) none
            [⟨some nm, some laI, some loI, none, none, none⟩,
             ⟨some nm, some laO, some loO, none, none, none⟩] =
              [⟨nm, laI, loI⟩]))) := by
  constructor
  · intro bbox els
    exact coletar_pois_elems_pairwise bbox els [] (List.Pairwise.nil)
  · intro nm laI loI laO loO b hnm hlaI hloI hlaO hloO hIn hOut
    refine ⟨?_, ?_, fun cidade => ⟨?_, ?_⟩⟩ <;>
      simp [coletar_pois, coletar_pois_elems, coletar_pois_async_elems,
        pyTruthyNum, pyTruthyStr, pyOrNum, point_in_polygon,
        hnm, hlaI, hloI, hlaO, hloO, hIn, hOut]

/-- C5 amended, witness: concrete inside/outside pair, the sync collector
keeps only the inside occurrence. -/
theorem poi_dedup_amended_witness :
    coletar_pois (some (0, 2, 0, 2))
      [⟨some "Bar1", some 5, some 5, none, none, none⟩,
       ⟨some "Bar1", some 1, some 1, none, none, none⟩] =
      [⟨"Bar1", 1, 1⟩] :=
  (poi_dedup_amended.2 "Bar1" 1 1 5 5 (0, 2, 0, 2) (by decide) (by decide)
    (by decide) (by decide) (by decide) (by decide) (by decide)).1

/-- C10.  The collectors test `if not (name and lat and lon)` with Python
truthiness, so an element whose latitude or longitude equals 0, or whose
name is the empty string, is silently discarded even though name and
coordinates are present in the payload. -/
theorem poi_zero_coordinate_dropped (nm : String) (la lo : ℚ) (bbox : Option Bbox)
    (cidade : String) (poly : Option (ℚ → ℚ → Bool))
    (h : la = 0 ∨ lo = 0 ∨ nm = "") :
    coletar_pois bbox [⟨some nm, some la, some lo, none, none, none⟩] = [] ∧
    coletar_pois_async_elems cidade bbox poly
      [⟨some nm, some la, some lo, none, none, none⟩] = [] := by
  rcases h with h | h | h <;> subst h <;>
    simp [coletar_pois, coletar_pois_elems, coletar_pois_async_elems,
      pyTruthyNum, pyTruthyStr, pyOrNum]

/-- C10 witness: a named element sitting exactly on the equator
(latitude 0) is dropped by both collectors. -/
theorem poi_zero_coordinate_dropped_witness :
    coletar_pois none [⟨some "Bar", some 0, some 50, none, none, none⟩] = [] ∧
    coletar_pois_async_elems "x" none none
      [⟨some "Bar", some 0, some 50, none, none, none⟩] = [] :=
  poi_zero_coordinate_dropped "Bar" 0 50 none "x" none (Or.inl rfl)

/-! ### Cost-matrix builder (`data_fetch.osrm_table`,
`async_fetch.osrm_table_async`)

Each HTTP request is modelled by its outcome: `fetch i` is the parsed row
of the per-source request for source index `i` (`none` on any exception),
`bulk` the parsed table of the bulk request (`none` when it fails and the
per-row fallback runs).  The Python code stores each completed row at
`results[idx]`, so the assembled order is by source index regardless of
completion order, and returns the all-zero `n × n` matrix as soon as any
row comes back failed. -/

/-- Fallback path of `osrm_table`: one request per row, all-zero matrix if
any row fails. -/
def osrm_table_fallback (n : ℕ) (fetch : ℕ → Option (List ℚ)) :
    List (List ℚ) :=
  if (List.range n).all (fun i => (fetch i).isSome) then
    (List.range n).map (fun i => (fetch i).getD [])
  else
    List.replicate n (List.replicate n 0)

/-- Embedding of `osrm_table`: the bulk table when the bulk request
succeeds, otherwise the per-row fallback. -/
def osrm_table (n : ℕ) (bulk : Option (List (List ℚ)))
    (fetch : ℕ → Option (List ℚ)) : List (List ℚ) :=
  match bulk with
  | some distances => distances
  | none => osrm_table_fallback n fetch

/-- C2.  Degraded mode of the cost-matrix builder: when the bulk request
fails, if every per-row request succeeds the assembled matrix has row `i`
equal to the row fetched for source index `i` (source-index order); if any
row request fails the result is the all-zero `n × n` matrix. -/
theorem osrm_table_degraded_spec (n : ℕ) (fetch : ℕ → Option (List ℚ)) :
    ((∀ i < n, (fetch i).isSome) →
      (osrm_table n none fetch).length = n ∧
      ∀ i < n, (osrm_table n none fetch).getD i [] = (fetch i).getD []) ∧
    ((∃ i < n, fetch i = none) →
      osrm_table n none fetch = List.replicate n (List.replicate n 0)) := by
  constructor
  · intro hall
    have hcond : (List.range n).all (fun i => (fetch i).isSome) = true := by
      simp only [List.all_eq_true, List.mem_range]
      exact fun i hi => hall i hi
    simp only [osrm_table, osrm_table_fallback, hcond, if_true]
    refine ⟨by simp, fun i hi => ?_⟩
    rw [List.getD_eq_getElem?_getD, List.getElem?_map, List.getElem?_range hi]
    rfl
  · intro ⟨i, hi, hnone⟩
    have hcond : (List.range n).all (fun i => (fetch i).isSome) = false := by
      simp only [List.all_eq_false, List.mem_range]
      exact ⟨i, hi, by simp [hnone]⟩
    simp [osrm_table, osrm_table_fallback, hcond]

/-- C2 witness: two rows, both per-row requests succeed (mirroring
`test_osrm_table_fallback`), and a failing variant. -/
theorem osrm_table_degraded_witness :
    ((osrm_table 2 none
        (fun i => if i = 0 then some [0, 1] else some [10, 11])).length = 2 ∧
      ∀ i < 2, (osrm_table 2 none
        (fun i => if i = 0 then some [0, 1] else some [10, 11])).getD i [] =
          ((fun i => if i = 0 then some [0, 1] else some [10, 11]) i).getD []) ∧
    osrm_table 2 none (fun _ => (none : Option (List ℚ))) =
      List.replicate 2 (List.replicate 2 0) :=
  ⟨(osrm_table_degraded_spec 2 _).1 (by decide),
   (osrm_table_degraded_spec 2 _).2 ⟨0, by decide, rfl⟩⟩

/-! ### Elevation batch lookup (`data_fetch.batch_altitude`,
`async_fetch.batch_altitude_async`) -/

/-- Embedding of `batch_altitude` over `n` input points: `resp` is the
parsed `results` array of the Open-Elevation response (`none` on any
exception), each entry's `elevation` field optional, mirroring
`r.get("elevation", 0)`. -/
def batch_altitude (n : ℕ) (resp : Option (List (Option ℚ))) : List ℚ :=
  match resp with
  | some results => results.map (fun r => r.getD 0)
  | none => List.replicate n 0

/-- C7.  Elevation batch lookup: a successful response with one result per
input yields exactly `n` altitudes, positionally matching the response
order; any failure yields the all-zero list of length `n`. -/
theorem batch_altitude_spec (n : ℕ) (resp : Option (List (Option ℚ))) :
    (∀ results, resp = some results → results.length = n →
      (batch_altitude n resp).length = n ∧
      ∀ i < n, (batch_altitude n resp).getD i 0 =
        (results.getD i none).getD 0) ∧
    (resp = none → batch_altitude n resp = List.replicate n 0) := by
  constructor
  · intro results hresp hlen
    subst hresp
    refine ⟨by simpa [batch_altitude], fun i hi => ?_⟩
    have hi' : i < results.length := hlen ▸ hi
    simp [batch_altitude, List.getD_eq_getElem?_getD, List.getElem?_map,
      List.getElem?_eq_getElem hi']
  · intro hresp
    subst hresp
    rfl

/-- C7 witness: two points, a response carrying elevations `5` and a
missing field, and the failing case. -/
theorem batch_altitude_witness :
    ((batch_altitude 2 (some [some 5, none])).length = 2 ∧
      ∀ i < 2, (batch_altitude 2 (some [some 5, none])).getD i 0 =
        (([some 5, none].getD i none).getD 0 : ℚ)) ∧
    batch_altitude 2 none = List.replicate 2 0 :=
  ⟨(batch_altitude_spec 2 (some [some 5, none])).1 [some 5, none] rfl rfl,
   (batch_altitude_spec 2 none).2 rfl⟩

/-! ### Elevation penalty (`optimization.apply_elevation_penalty`) -/

/-- Embedding of `apply_elevation_penalty`.  `weight <= 0` returns the
input itself; otherwise the loop over `i, j in range(n) × range(n)`,
`n = len(dist_matrix)`, skips the diagonal and adds `gain * weight` to
entry `(i, j)` when `gain = alts[j] - alts[i] > 0`.  Entries of a row
beyond column `n` are never touched by the Python loop, hence the
`j < n` guard; `alts.getD` models the in-bounds indexing `alts[j]`.
The result is a fresh list (`penal = [row[:] for row in dist_matrix]`);
the input value is untouched, which the pure embedding makes implicit. -/
def apply_elevation_penalty (dist_matrix : List (List ℚ))
    (coords : List (ℚ × ℚ × ℚ)) (weight : ℚ) : List (List ℚ) :=
  if weight ≤ 0 then dist_matrix
  else
    let n := dist_matrix.length
    let alts := coords.map (fun c => c.2.2)
    dist_matrix.mapIdx (fun i row =>
      row.mapIdx (fun j v =>
        if j < n ∧ i ≠ j then
          let gain := alts.getD j 0 - alts.getD i 0
          if 0 < gain then v + gain * weight else v
        else v))

/-- Indexing through `List.mapIdx` with a default. -/
lemma getD_mapIdx {α β : Type} (l : List α) (f : ℕ → α → β) (i : ℕ)
    (hi : i < l.length) (d : β) : (l.mapIdx f).getD i d = f i l[i] := by
  rw [List.getD_eq_getElem?_getD, List.getElem?_mapIdx,
    List.getElem?_eq_getElem hi]
  rfl

/-- Indexing with a default, in bounds. -/
lemma getD_of_lt {α : Type} (l : List α) (i : ℕ) (hi : i < l.length)
    (d : α) : l.getD i d = l[i] := by
  rw [List.getD_eq_getElem?_getD, List.getElem?_eq_getElem hi]
  rfl

/-- C3.  Elevation-penalty postcondition: with `weight ≤ 0` the input is
returned unchanged; with `weight > 0` the dimensions are preserved, every
off-diagonal entry `(i, j)` of a square matrix with matching altitude
list becomes `matrix[i][j] + weight * max 0 (altitude j - altitude i)`,
and diagonal entries are unchanged.  The input matrix itself is never
mutated (the embedding is pure and the result is built by `mapIdx`). -/
theorem apply_elevation_penalty_spec (m : List (List ℚ))
    (coords : List (ℚ × ℚ × ℚ)) (w : ℚ) :
    (w ≤ 0 → apply_elevation_penalty m coords w = m) ∧
    (0 < w →
      (apply_elevation_penalty m coords w).length = m.length ∧
      (∀ i, ((apply_elevation_penalty m coords w).getD i []).length =
        (m.getD i []).length) ∧
      (∀ i j, i < m.length → j < m.length →
        (∀ row ∈ m, row.length = m.length) →
        coords.length = m.length →
        (i ≠ j →
          ((apply_elevation_penalty m coords w).getD i []).getD j 0 =
            ((m.getD i []).getD j 0) +
              w * max 0 ((coords.getD j (0, 0, 0)).2.2 -
                (coords.getD i (0, 0, 0)).2.2)) ∧
        (i = j →
          ((apply_elevation_penalty m coords w).getD i []).getD j 0 =
            (m.getD i []).getD j 0))) := by
  constructor
  · intro hw
    simp [apply_elevation_penalty, hw]
  · intro hw
    have hw' : ¬ w ≤ 0 := not_le.mpr hw
    refine ⟨by simp [apply_elevation_penalty, hw'], fun i => ?_, ?_⟩
    · simp only [apply_elevation_penalty, hw', if_false]
      rw [List.getD_eq_getElem?_getD, List.getD_eq_getElem?_getD,
        List.getElem?_mapIdx]
      cases hrow : m[i]? with
      | none => rfl
      | some row => simp
    · intro i j hi hj hsq hc
      have hjrow : j < m[i].length := by
        rw [hsq m[i] (List.getElem_mem hi)]
        exact hj
      have hbase : (m.getD i []).getD j 0 = m[i][j] := by
        rw [getD_of_lt m i hi, getD_of_lt m[i] j hjrow]
      have key : ((apply_elevation_penalty m coords w).getD i []).getD j 0 =
          (if j < m.length ∧ i ≠ j then
            if 0 < ((coords.map (fun c => c.2.2)).getD j 0 -
                (coords.map (fun c => c.2.2)).getD i 0) then
              m[i][j] +
                ((coords.map (fun c => c.2.2)).getD j 0 -
                  (coords.map (fun c => c.2.2)).getD i 0) * w
            else m[i][j]
          else m[i][j]) := by
        simp only [apply_elevation_penalty, hw', if_false]
        rw [getD_mapIdx m _ i hi, getD_mapIdx m[i] _ j hjrow]
      have halt : ∀ k, k < m.length →
          (coords.map (fun c => c.2.2)).getD k 0 =
            (coords.getD k (0, 0, 0)).2.2 := by
        intro k hk
        have hk' : k < coords.length := hc ▸ hk
        have hk'' : k < (coords.map (fun c => c.2.2)).length := by
          simpa using hk'
        rw [getD_of_lt coords k hk' (0, 0, 0),
          getD_of_lt _ k hk'' 0, List.getElem_map]
      constructor
      · intro hij
        rw [key, if_pos ⟨hj, hij⟩, halt i hi, halt j hj, hbase]
        set gain := (coords.getD j (0, 0, 0)).2.2 -
          (coords.getD i (0, 0, 0)).2.2 with hgain
        by_cases hg : 0 < gain
        · rw [if_pos hg, max_eq_right hg.le]
          ring
        · rw [if_neg hg, max_eq_left (not_lt.mp hg)]
          ring
      · intro hij
        rw [key, if_neg (by simp [hij]), hbase]

/-- Uniform 4×4 base matrix of the spec's elevation-penalty example. -/
def baseMatrix4 : List (List ℚ) :=
  [[0, 1, 1, 1], [1, 0, 1, 1], [1, 1, 0, 1], [1, 1, 1, 0]]

/-- Altitude-carrying points `[0, 0, 50, 100]` of the spec's example. -/
def coords4 : List (ℚ × ℚ × ℚ) :=
  [(0, 0, 0), (0, 0, 0), (0, 0, 50), (0, 0, 100)]

/-- C3 witness: entry `(1, 3)` of the penalized example matrix equals the
base cost plus `1 * max 0 (100 - 0)`. -/
theorem apply_elevation_penalty_witness :
    (1 ≠ 3 → ((apply_elevation_penalty baseMatrix4 coords4 1).getD 1 []).getD 3 0 =
        ((baseMatrix4.getD 1 []).getD 3 0) +
          1 * max 0 ((coords4.getD 3 (0, 0, 0)).2.2 -
            (coords4.getD 1 (0, 0, 0)).2.2)) ∧
    (1 = 3 → ((apply_elevation_penalty baseMatrix4 coords4 1).getD 1 []).getD 3 0 =
        (baseMatrix4.getD 1 []).getD 3 0) :=
  ((apply_elevation_penalty_spec baseMatrix4 coords4 1).2 (by norm_num)).2.2
    1 3 (by decide) (by decide) (by decide) (by decide)

/-! ### Waypoint pre-selection (`ui.on_compute`) -/

/-- Python `min(xs, key=key)` folding step: the incumbent is replaced only
on a strictly smaller key, so the first element attaining the minimum
wins. -/
def pyMinFold (key : ℕ → ℚ) (b : ℕ) (xs : List ℕ) : ℕ :=
  xs.foldl (fun acc i => if key i < key acc then i else acc) b

/-- Embedding of the pre-selection in `ui.on_compute`:
`best = min(range(1, end_idx), key=lambda i: dist[i][end_idx])`.
`none` models the `ValueError` Python raises when the range is empty. -/
def select_waypoint (dist : List (List ℚ)) (end_idx : ℕ) : Option ℕ :=
  match List.range' 1 (end_idx - 1) with
  | [] => none
  | x :: xs =>
      some (pyMinFold (fun i => (dist.getD i []).getD end_idx 0) x xs)

/-- Structure of the Python-min fold: either the seed survives and its key
is minimal, or the result sits inside the list, strictly beats the seed
and everything before it, and weakly beats everything after it. -/
lemma pyMinFold_cases (key : ℕ → ℚ) :
    ∀ (xs : List ℕ) (b : ℕ),
      (pyMinFold key b xs = b ∧ ∀ i ∈ xs, key b ≤ key i) ∨
      (∃ ys zs, xs = ys ++ pyMinFold key b xs :: zs ∧
        key (pyMinFold key b xs) < key b ∧
        (∀ y ∈ ys, key (pyMinFold key b xs) < key y) ∧
        (∀ z ∈ zs, key (pyMinFold key b xs) ≤ key z)) := by
  intro xs
  induction xs with
  | nil => exact fun b => Or.inl ⟨rfl, by simp⟩
  | cons x xs ih =>
    intro b
    have hstep : ∀ c : ℕ, pyMinFold key b (x :: xs) =
        pyMinFold key (if key x < key b then x else b) xs := by
      intro _
      simp [pyMinFold]
    by_cases hx : key x < key b
    · have heq : pyMinFold key b (x :: xs) = pyMinFold key x xs := by
        rw [hstep 0, if_pos hx]
      rcases ih x with ⟨h1, h2⟩ | ⟨ys, zs, hsplit, hlt, hys, hzs⟩
      · refine Or.inr ⟨[], xs, ?_, ?_, by simp, ?_⟩
        · simp [heq, h1]
        · rw [heq, h1]
          exact hx
        · intro z hz
          rw [heq, h1]
          exact h2 z hz
      · refine Or.inr ⟨x :: ys, zs, ?_, ?_, ?_, ?_⟩
        · rw [heq, List.cons_append]
          exact congrArg (List.cons x) hsplit
        · rw [heq]
          exact hlt.trans hx
        · intro y hy
          rw [heq]
          rcases List.mem_cons.mp hy with rfl | hy'
          · exact hlt
          · exact hys y hy'
        · intro z hz
          rw [heq]
          exact hzs z hz
    · have heq : pyMinFold key b (x :: xs) = pyMinFold key b xs := by
        rw [hstep 0, if_neg hx]
      rcases ih b with ⟨h1, h2⟩ | ⟨ys, zs, hsplit, hlt, hys, hzs⟩
      · refine Or.inl ⟨by rw [heq, h1], ?_⟩
        intro i hi
        rcases List.mem_cons.mp hi with rfl | hi'
        · exact le_of_not_lt hx
        · exact h2 i hi'
      · refine Or.inr ⟨x :: ys, zs, ?_, ?_, ?_, ?_⟩
        · rw [heq, List.cons_append]
          exact congrArg (List.cons x) hsplit
        · rw [heq]
          exact hlt
        · intro y hy
          rw [heq]
          rcases List.mem_cons.mp hy with rfl | hy'
          · exact hlt.trans_le (le_of_not_lt hx)
          · exact hys y hy'
        · intro z hz
          rw [heq]
          exact hzs z hz

/-- Cost matrix realising the spec's example `dist[i][end]` values
`{1: 5, 2: 2, 3: 9}` with `end = 4`. -/
def distExample : List (List ℚ) :=
  [[0, 0, 0, 0, 0], [0, 0, 0, 0, 5], [0, 0, 0, 0, 2],
   [0, 0, 0, 0, 9], [0, 0, 0, 0, 0]]

/-- C9.  Waypoint pre-selection: for `end_idx ≥ 2` the selected index lies
strictly between `0` and `end_idx`, minimizes `dist[i][end_idx]` over that
range, ties break to the lowest index; and on the spec's example
`{1: 5, 2: 2, 3: 9}` it returns `2`. -/
theorem select_waypoint_spec :
    (∀ (dist : List (List ℚ)) (e : ℕ), 2 ≤ e →
      ∃ i, select_waypoint dist e = some i ∧ 1 ≤ i ∧ i < e ∧
        (∀ j, 1 ≤ j → j < e →
          (dist.getD i []).getD e 0 ≤ (dist.getD j []).getD e 0) ∧
        (∀ j, 1 ≤ j → j < e →
          (dist.getD j []).getD e 0 = (dist.getD i []).getD e 0 → i ≤ j)) ∧
    select_waypoint distExample 4 = some 2 := by
  constructor
  · intro dist e he
    set key : ℕ → ℚ := fun i => (dist.getD i []).getD e 0 with hkey
    have hsz : e - 1 = (e - 2) + 1 := by omega
    have hrange : List.range' 1 (e - 1) = 1 :: List.range' 2 (e - 2) := by
      rw [hsz, List.range'_succ]
    have hsel : select_waypoint dist e =
        some (pyMinFold key 1 (List.range' 2 (e - 2))) := by
      rw [select_waypoint, hrange]
    set r := pyMinFold key 1 (List.range' 2 (e - 2)) with hr
    have hmem2 : ∀ j, j ∈ List.range' 2 (e - 2) ↔ 2 ≤ j ∧ j < e := by
      intro j
      rw [List.mem_range'_1]
      omega
    rcases pyMinFold_cases key (List.range' 2 (e - 2)) 1 with
      ⟨h1, h2⟩ | ⟨ys, zs, hsplit, hlt, hys, hzs⟩
    · refine ⟨r, hsel, ?_, ?_, ?_, ?_⟩
      · rw [hr, h1]
      · rw [hr, h1]
        omega
      · intro j hj1 hje
        rw [hr, h1]
        rcases Nat.eq_or_lt_of_le hj1 with rfl | hj2
        · exact le_refl _
        · exact h2 j ((hmem2 j).mpr ⟨hj2, hje⟩)
      · intro j hj1 _ _
        rw [hr, h1]
        exact hj1
    · have hrmem : r ∈ List.range' 2 (e - 2) := by
        rw [hsplit]
        exact List.mem_append.mpr (Or.inr (List.mem_cons_self _ _))
      have hr2 : 2 ≤ r ∧ r < e := (hmem2 r).mp hrmem
      have hpw : (List.range' 2 (e - 2)).Pairwise (· < ·) :=
        List.pairwise_lt_range' 2 (e - 2)
      have hzlt : ∀ z ∈ zs, r < z := by
        have := hsplit ▸ hpw
        exact (List.pairwise_cons.mp (List.pairwise_append.mp this).2.1).1
      refine ⟨r, hsel, by omega, hr2.2, ?_, ?_⟩
      · intro j hj1 hje
        rcases Nat.eq_or_lt_of_le hj1 with rfl | hj2
        · exact hlt.le
        · have hjmem : j ∈ List.range' 2 (e - 2) := (hmem2 j).mpr ⟨hj2, hje⟩
          rw [hsplit] at hjmem
          rcases List.mem_append.mp hjmem with hy | hrz
          · exact (hys j hy).le
          · rcases List.mem_cons.mp hrz with rfl | hz
            · exact le_refl _
            · exact hzs j hz
      · intro j hj1 hje htie
        have htie' : key j = key r := htie
        rcases Nat.eq_or_lt_of_le hj1 with rfl | hj2
        · rw [htie'] at hlt
          exact absurd hlt (lt_irrefl _)
        · have hjmem : j ∈ List.range' 2 (e - 2) := (hmem2 j).mpr ⟨hj2, hje⟩
          rw [hsplit] at hjmem
          rcases List.mem_append.mp hjmem with hy | hrz
          · have := hys j hy
            rw [htie'] at this
            exact absurd this (lt_irrefl _)
          · rcases List.mem_cons.mp hrz with rfl | hz
            · exact le_refl _
            · exact (hzlt j hz).le
  · decide

/-- C9 witness: the general pre-selection property instantiated on the
spec's example matrix with `end_idx = 4`. -/
theorem select_waypoint_spec_witness :
    ∃ i, select_waypoint distExample 4 = some i ∧ 1 ≤ i ∧ i < 4 ∧
      (∀ j, 1 ≤ j → j < 4 →
        (distExample.getD i []).getD 4 0 ≤ (distExample.getD j []).getD 4 0) ∧
      (∀ j, 1 ≤ j → j < 4 →
        (distExample.getD j []).getD 4 0 = (distExample.getD i []).getD 4 0 →
          i ≤ j) :=
  select_waypoint_spec.1 distExample 4 (by norm_num)

/-! ### Christofides post-processing (`optimization.christofides_tsp`)

The call `nx.approximation.christofides(g)` is external; its returned
closed tour is the `cycle` parameter below.  Everything after that call is
embedded: dropping the redundant closing element, the rotation loop
`while cycle[0] != start: cycle.append(cycle.pop(0))`, and the rotation
loop `while cycle[-1] != end` (or appending `end` when absent).  Each
`cycle.append(cycle.pop(0))` is a left rotation by one, `List.rotate · 1`. -/

/-- Loop `if start in cycle: while cycle[0] != start: rotate left`: the
loop stops after `indexOf start` single rotations, the first count putting
`start` at the head. -/
def rotate_head_to (l : List ℕ) (x : ℕ) : List ℕ :=
  if x ∈ l then l.rotate (l.indexOf x) else l

/-- Loop `if end in cycle: while cycle[-1] != end: rotate left` (else
`cycle.append(end)`): when the last element is already `end` no rotation
happens; otherwise the loop stops after `indexOf end + 1` single
rotations, the first count putting the first occurrence of `end` last. -/
def rotate_last_to (l : List ℕ) (x : ℕ) : List ℕ :=
  if x ∈ l then
    if l.getLast? = some x then l
    else l.rotate ((l.indexOf x + 1) % l.length)
  else l ++ [x]

/-- Post-processing of `christofides_tsp` applied to the external
algorithm's closed tour. -/
def christofides_post (cycle : List ℕ) (start e : ℕ) : List ℕ :=
  let c :=
    if cycle ≠ [] ∧ cycle.head? = cycle.getLast? then cycle.dropLast
    else cycle
  rotate_last_to (rotate_head_to c start) e

/-- C1.  On the Hamiltonian closed tour `[0, 2, 1, 3, 0]` with `start = 0`
and `end = 1`, the post-processing of `christofides_tsp` returns
`[3, 0, 2, 1]`: the rotation that moves `end` to the last position
displaces `start`, so the returned route does not begin at `start`,
contradicting the route-validity claim, the function's own docstring and
the repository's test `_check_route`. -/
theorem christofides_post_breaks_start :
    christofides_post [0, 2, 1, 3, 0] 0 1 = [3, 0, 2, 1] ∧
    ¬ ([3, 0, 2, 1] : List ℕ).head? = some 0 := by
  constructor
  · decide
  · decide

/-! ### Collector totality (`data_fetch.coletar_pois`,
`geocoding.get_city_bbox`) -/

/-- Outcome of a Python computation: a value, or a raised exception. -/
inductive PyResult (α : Type) where
  | ok (val : α)
  | exn
deriving Repr, DecidableEq

/-- Embedding of `coletar_pois` with its exception behaviour:
`get_city_bbox` runs outside any `try`, so an exception raised there (the
geopy geocoder call in `get_city_bbox` has no handler) propagates to the
caller; failures of the Overpass POST (`requests.RequestException`) and of
the JSON decoding are caught and yield `[]`. -/
def coletar_pois_total (bboxRes : PyResult (Option Bbox))
    (overpass : PyResult (List OsmElement)) : PyResult (List POI) :=
  match bboxRes with
  | .exn => .exn
  | .ok bbox =>
    match overpass with
    | .exn => .ok []
    | .ok elements => .ok (coletar_pois bbox elements)

/-- C6 counterexample: when the city bounding-box lookup raises, the
collector propagates the exception instead of returning the empty
sequence. -/
theorem coletar_pois_total_raises :
    coletar_pois_total PyResult.exn (PyResult.ok []) = PyResult.exn ∧
    coletar_pois_total PyResult.exn (PyResult.ok []) ≠ PyResult.ok [] := by
  constructor
  · rfl
  · intro h
    exact PyResult.noConfusion h

/-- C6 amended.  When the bounding-box lookup completes, any failure of
the Overpass request or of the payload decoding yields the empty
sequence and no exception escapes; but an exception in the bounding-box
lookup itself propagates to the caller. -/
theorem coletar_pois_total_spec :
    (∀ bbox : Option Bbox, coletar_pois_total (.ok bbox) .exn = .ok []) ∧
    (∀ (bbox : Option Bbox) (elements : List OsmElement),
      coletar_pois_total (.ok bbox) (.ok elements) =
        .ok (coletar_pois bbox elements)) ∧
    (∀ overpass : PyResult (List OsmElement),
      coletar_pois_total .exn overpass = .exn) := by
  exact ⟨fun _ => rfl, fun _ _ => rfl, fun _ => rfl⟩

/-! ### Geocoder cache (`geocoding.py`) -/

/-- Result of a geopy geocoder call: a location with its raw address tags
`city`, `town`, `village`; no result (`None`); or a raised exception of
the kind the calling block catches (`GeocoderTimedOut` in the strict
path, any `Exception` in the fallback blocks). -/
inductive GeoOutcome where
  | found (lat lon : ℚ) (city town village : Option String)
  | notFound
  | err

/-- Process-wide cache `_cache_geo`, insertion ordered. -/
abbrev GeoCache := List (String × ℚ × ℚ)

/-- Dictionary lookup, `key in _cache_geo` and `_cache_geo[key]`. -/
def cacheLookup (key : String) (c : GeoCache) : Option (ℚ × ℚ) :=
  (c.find? (fun kv => kv.1 = key)).map (fun kv => kv.2)

/-- Dictionary insertion performed by `_cache_geo.setdefault(key, value)`
on a key that is absent. -/
def cacheInsert (key : String) (v : ℚ × ℚ) (c : GeoCache) : GeoCache :=
  c ++ [(key, v)]

/-- Key built by the f-strings `f"strict|{address}|{city}"` and
`f"fallback|{address}|{city}"`. -/
def cacheKey (mode addr city : String) : String :=
  mode ++ "|" ++ addr ++ "|" ++ city

/-- Outcome of one provider block of `geocode_strict_single` /
`geocode_fallback_single`. -/
inductive StageOutcome where
  | hit (lat lon : ℚ)
  | reject
  | fallthrough
deriving DecidableEq

/-- Shared check block of the three provider blocks:
`if loc and (not bbox or dentro_da_cidade(...))`, then the
`addr.get("city") or addr.get("town") or addr.get("village")` locality
test and the polygon test, whose `return None` statements are `reject`;
a `None` location, a failed containment test or a caught exception fall
out of the block (`fallthrough`). -/
def checkLoc (bbox : Option Bbox) (poly : Option (ℚ → ℚ → Bool))
    (city : String) : GeoOutcome → StageOutcome
  | .err => .fallthrough
  | .notFound => .fallthrough
  | .found lat lon c t v =>
    if bbox.isNone || dentro_da_cidade lat lon (bbox.getD (0, 0, 0, 0)) then
      let ctag := pyOrStr (pyOrStr c t) v
      if pyTruthyStr ctag &&
          decide ((ctag.getD "").toLower ≠ city.toLower) then .reject
      else if !point_in_polygon lat lon poly then .reject
      else .hit lat lon
    else .fallthrough

/-- Embedding of `geocode_strict_single`: cache consultation, one
provider call when the key is absent (`prov` is its outcome, the third
component records whether the provider was invoked), memoization of the
successful coordinate only; `reject` and `fallthrough` both end in the
function's final `return None`. -/
def geocode_strict_single (bbox : Option Bbox)
    (poly : Option (ℚ → ℚ → Bool)) (prov : GeoOutcome)
    (address city : String) (cache : GeoCache) :
    Option (ℚ × ℚ) × GeoCache × Bool :=
  let key := cacheKey "strict" address city
  match cacheLookup key cache with
  | some v => (some v, cache, false)
  | none =>
    match checkLoc bbox poly city prov with
    | .hit lat lon => (some (lat, lon), cacheInsert key (lat, lon) cache, true)
    | .reject => (none, cache, true)
    | .fallthrough => (none, cache, true)

/-- Embedding of `geocode_fallback_single`: cache consultation, then the
Nominatim block (outcome `prov1`), then — only when the first block falls
through — the Photon block (outcome `prov2`); the last two components
record which providers were invoked.  A `reject` in either block is that
block's `return None` and stops the function. -/
def geocode_fallback_single (bbox : Option Bbox)
    (poly : Option (ℚ → ℚ → Bool)) (prov1 prov2 : GeoOutcome)
    (address city : String) (cache : GeoCache) :
    Option (ℚ × ℚ) × GeoCache × Bool × Bool :=
  let key := cacheKey "fallback" address city
  match cacheLookup key cache with
  | some v => (some v, cache, false, false)
  | none =>
    match checkLoc bbox poly city prov1 with
    | .hit lat lon =>
        (some (lat, lon), cacheInsert key (lat, lon) cache, true, false)
    | .reject => (none, cache, true, false)
    | .fallthrough =>
      match checkLoc bbox poly city prov2 with
      | .hit lat lon =>
          (some (lat, lon), cacheInsert key (lat, lon) cache, true, true)
      | .reject => (none, cache, true, true)
      | .fallthrough => (none, cache, true, true)

/-- Inserting an absent key makes it found with the inserted value. -/
lemma cacheLookup_insert_self (key : String) (v : ℚ × ℚ) (c : GeoCache)
    (h : cacheLookup key c = none) :
    cacheLookup key (cacheInsert key v c) = some v := by
  have hf : c.find? (fun kv => kv.1 = key) = none := Option.map_eq_none'.mp h
  rw [cacheLookup, cacheInsert, List.find?_append, hf]
  rw [List.find?_cons_of_pos _ (by simp)]
  rfl

/-- Strict lookup on a cached key returns it without calling the
provider. -/
lemma strict_cache_hit (bbox : Option Bbox) (poly : Option (ℚ → ℚ → Bool))
    (prov : GeoOutcome) (a c : String) (cache : GeoCache) (v : ℚ × ℚ)
    (h : cacheLookup (cacheKey "strict" a c) cache = some v) :
    geocode_strict_single bbox poly prov a c cache = (some v, cache, false) := by
  simp [geocode_strict_single, h]

/-- A successful strict lookup leaves its key cached with its value. -/
lemma strict_success_cached (bbox : Option Bbox)
    (poly : Option (ℚ → ℚ → Bool)) (prov : GeoOutcome) (a c : String)
    (cache cache₂ : GeoCache) (p : ℚ × ℚ) (called : Bool)
    (h : geocode_strict_single bbox poly prov a c cache = (some p, cache₂, called)) :
    cacheLookup (cacheKey "strict" a c) cache₂ = some p := by
  simp only [geocode_strict_single] at h
  split at h
  · rename_i v hl
    simp only [Prod.mk.injEq, Option.some.injEq] at h
    obtain ⟨hp, hc, -⟩ := h
    rw [← hc, ← hp]
    exact hl
  · rename_i hl
    split at h
    · rename_i lat lon hk
      simp only [Prod.mk.injEq, Option.some.injEq] at h
      obtain ⟨hp, hc, -⟩ := h
      rw [← hc, ← hp]
      exact cacheLookup_insert_self _ _ _ hl
    · simp at h
    · simp at h

/-- A strict lookup that returns no result leaves the cache unchanged. -/
lemma strict_failure_uncached (bbox : Option Bbox)
    (poly : Option (ℚ → ℚ → Bool)) (prov : GeoOutcome) (a c : String)
    (cache cache₂ : GeoCache) (called : Bool)
    (h : geocode_strict_single bbox poly prov a c cache = (none, cache₂, called)) :
    cache₂ = cache := by
  simp only [geocode_strict_single] at h
  split at h
  · simp at h
  · split at h
    · simp at h
    · simp only [Prod.mk.injEq] at h
      exact h.2.1.symm
    · simp only [Prod.mk.injEq] at h
      exact h.2.1.symm

/-- Fallback lookup on a cached key returns it calling no provider. -/
lemma fallback_cache_hit (bbox : Option Bbox)
    (poly : Option (ℚ → ℚ → Bool)) (prov1 prov2 : GeoOutcome)
    (a c : String) (cache : GeoCache) (v : ℚ × ℚ)
    (h : cacheLookup (cacheKey "fallback" a c) cache = some v) :
    geocode_fallback_single bbox poly prov1 prov2 a c cache =
      (some v, cache, false, false) := by
  simp [geocode_fallback_single, h]

/-- A successful fallback lookup leaves its key cached with its value. -/
lemma fallback_success_cached (bbox : Option Bbox)
    (poly : Option (ℚ → ℚ → Bool)) (prov1 prov2 : GeoOutcome)
    (a c : String) (cache cache₂ : GeoCache) (p : ℚ × ℚ) (c1 c2 : Bool)
    (h : geocode_fallback_single bbox poly prov1 prov2 a c cache =
      (some p, cache₂, c1, c2)) :
    cacheLookup (cacheKey "fallback" a c) cache₂ = some p := by
  simp only [geocode_fallback_single] at h
  split at h
  · rename_i v hl
    simp only [Prod.mk.injEq, Option.some.injEq] at h
    obtain ⟨hp, hc, -⟩ := h
    rw [← hc, ← hp]
    exact hl
  · rename_i hl
    split at h
    · rename_i lat lon hk1
      simp only [Prod.mk.injEq, Option.some.injEq] at h
      obtain ⟨hp, hc, -⟩ := h
      rw [← hc, ← hp]
      exact cacheLookup_insert_self _ _ _ hl
    · simp at h
    · split at h
      · rename_i lat lon hk2
        simp only [Prod.mk.injEq, Option.some.injEq] at h
        obtain ⟨hp, hc, -⟩ := h
        rw [← hc, ← hp]
        exact cacheLookup_insert_self _ _ _ hl
      · simp at h
      · simp at h

/-- A fallback lookup that returns no result leaves the cache
unchanged. -/
lemma fallback_failure_uncached (bbox : Option Bbox)
    (poly : Option (ℚ → ℚ → Bool)) (prov1 prov2 : GeoOutcome)
    (a c : String) (cache cache₂ : GeoCache) (c1 c2 : Bool)
    (h : geocode_fallback_single bbox poly prov1 prov2 a c cache =
      (none, cache₂, c1, c2)) :
    cache₂ = cache := by
  simp only [geocode_fallback_single] at h
  split at h
  · simp at h
  · split at h
    · simp at h
    · simp only [Prod.mk.injEq] at h
      exact h.2.1.symm
    · split at h
      · simp at h
      · simp only [Prod.mk.injEq] at h
        exact h.2.1.symm
      · simp only [Prod.mk.injEq] at h
        exact h.2.1.symm

/-- Strict and fallback cache keys never collide. -/
lemma cacheKey_mode_ne (a c a2 c2 : String) :
    cacheKey "strict" a c ≠ cacheKey "fallback" a2 c2 := by
  intro h
  rw [cacheKey, cacheKey] at h
  have hd := congrArg String.data h
  simp only [String.data_append] at hd
  have h0 := congrArg List.head? hd
  simp at h0

/-- A fallback lookup on an uncached key always invokes the primary
fallback provider. -/
lemma fallback_miss_calls_provider (bbox : Option Bbox)
    (poly : Option (ℚ → ℚ → Bool)) (prov1 prov2 : GeoOutcome)
    (a c : String) (cache : GeoCache)
    (h : cacheLookup (cacheKey "fallback" a c) cache = none) :
    (geocode_fallback_single bbox poly prov1 prov2 a c cache).2.2.1 = true := by
  simp only [geocode_fallback_single, h]
  cases hk1 : checkLoc bbox poly c prov1 with
  | hit lat lon => rfl
  | reject => rfl
  | fallthrough =>
    simp only [hk1]
    cases hk2 : checkLoc bbox poly c prov2 with
    | hit lat lon => rfl
    | reject => rfl
    | fallthrough => rfl

/-- C4.  Geocode cache policy: a cached success is returned without
invoking any provider; a success is memoized so an identical later call
(whatever its provider outcomes) answers from the cache with no provider
invocation; failures are never cached; the strict and fallback cache keys
for the same address and city differ, and a failed strict lookup leaves
the cache unchanged, so a subsequent fallback lookup for the same address
and city still invokes the fallback provider. -/
theorem geocode_cache_policy :
    (∀ bbox poly prov a c cache p cache₂ called bbox₂ poly₂ prov₂,
      geocode_strict_single bbox poly prov a c cache =
        (some p, cache₂, called) →
      geocode_strict_single bbox₂ poly₂ prov₂ a c cache₂ =
        (some p, cache₂, false)) ∧
    (∀ bbox poly prov a c cache cache₂ called,
      geocode_strict_single bbox poly prov a c cache =
        (none, cache₂, called) → cache₂ = cache) ∧
    (∀ bbox poly prov1 prov2 a c cache p cache₂ c1 c2 bbox₂ poly₂ q1 q2,
      geocode_fallback_single bbox poly prov1 prov2 a c cache =
        (some p, cache₂, c1, c2) →
      geocode_fallback_single bbox₂ poly₂ q1 q2 a c cache₂ =
        (some p, cache₂, false, false)) ∧
    (∀ bbox poly prov1 prov2 a c cache cache₂ c1 c2,
      geocode_fallback_single bbox poly prov1 prov2 a c cache =
        (none, cache₂, c1, c2) → cache₂ = cache) ∧
    (∀ a c a2 c2, cacheKey "strict" a c ≠ cacheKey "fallback" a2 c2) ∧
    (∀ bbox poly prov a c cache cache₂ called bbox₂ poly₂ q1 q2,
      geocode_strict_single bbox poly prov a c cache =
        (none, cache₂, called) →
      cacheLookup (cacheKey "fallback" a c) cache = none →
      (geocode_fallback_single bbox₂ poly₂ q1 q2 a c cache₂).2.2.1 = true) := by
  refine ⟨?_, strict_failure_uncached, ?_, fallback_failure_uncached,
    cacheKey_mode_ne, ?_⟩
  · intro bbox poly prov a c cache p cache₂ called bbox₂ poly₂ prov₂ h
    exact strict_cache_hit bbox₂ poly₂ prov₂ a c cache₂ p
      (strict_success_cached bbox poly prov a c cache cache₂ p called h)
  · intro bbox poly prov1 prov2 a c cache p cache₂ c1 c2 bbox₂ poly₂ q1 q2 h
    exact fallback_cache_hit bbox₂ poly₂ q1 q2 a c cache₂ p
      (fallback_success_cached bbox poly prov1 prov2 a c cache cache₂ p c1 c2 h)
  · intro bbox poly prov a c cache cache₂ called bbox₂ poly₂ q1 q2 hs hf
    rw [strict_failure_uncached bbox poly prov a c cache cache₂ called hs]
    exact fallback_miss_calls_provider bbox₂ poly₂ q1 q2 a c cache hf

/-- C4 witness: a concrete successful strict lookup (location `(1, 2)`
inside bbox `(-2, 2, -2, 2)`, no locality tag, no polygon) is memoized,
and a repeated identical call answers from the cache without invoking the
provider; and a failed strict lookup (provider finds nothing) followed by
a fallback lookup on the fresh cache still calls the fallback provider. -/
theorem geocode_cache_policy_witness :
    geocode_strict_single (some (-2, 2, -2, 2)) none
      (GeoOutcome.found 1 2 none none none) "addr" "city"
      [(cacheKey "strict" "addr" "city", (1, 2))] =
      (some (1, 2), [(cacheKey "strict" "addr" "city", (1, 2))], false) ∧
    (geocode_fallback_single none none GeoOutcome.notFound
      GeoOutcome.notFound "addr" "city" []).2.2.1 = true :=
  ⟨geocode_cache_policy.1 (some (-2, 2, -2, 2)) none
      (GeoOutcome.found 1 2 none none none) "addr" "city" [] (1, 2)
      [(cacheKey "strict" "addr" "city", (1, 2))] true (some (-2, 2, -2, 2))
      none (GeoOutcome.found 1 2 none none none) (by decide),
   geocode_cache_policy.2.2.2.2.2 none none GeoOutcome.notFound "addr" "city"
      [] [] true none none GeoOutcome.notFound GeoOutcome.notFound
      (by decide) (by decide)⟩

end RotaDeBares
